import Mathlib

/-!
# RateMyCourse vote state machine — formal model

Shallow embedding of the vote subsystem of the RateMyCourse repository:

* the server-side vote API route (`handler` in the vote route file):
  POST (cast or toggle a vote), GET (batch-fetch the caller's votes),
  DELETE (remove a vote), each modelled as a pure function from the
  request data, the resolved auth state, injected store-error outcomes
  and the current vote table to a response plus the resulting table;
* the client-side `useVotes` hook: optimistic updates, rollback cache,
  per-review pending guard, and server reconciliation, modelled as a
  state-transition function split into a `begin` phase (guard, snapshot,
  optimistic update, request dispatch) and a `finish` phase (reconcile
  on success / rollback on failure);
* the `VoteButton` component's `handleVote` with its single net-count.

JavaScript objects used as string-keyed dictionaries that are only ever
read through `obj[k] || default` are modelled as total functions
`String → ·` with that default; JavaScript `Map`s are modelled as
association lists. Machine integers are modelled as `Int` (JS numbers
used only for small counters here).
-/

/-- Vote direction: the `vote_type` enum `'helpful' | 'unhelpful'`. -/
inductive Dir : Type where
  | helpful
  | unhelpful
deriving DecidableEq, Repr

/-- `VoteType` from the client code: `'helpful' | 'unhelpful' | null`. -/
abbrev VoteType := Option Dir

/-- One row of the `votes` table. -/
structure Vote : Type where
  id : Nat
  review_id : String
  anonymous_id : String
  auth_id : String
  vote_type : Dir
  created_at : Nat
deriving DecidableEq, Repr

/-- The existing-vote lookup of the POST handler:
`supabase.from('votes').select(...).eq('review_id', rid).eq('auth_id', aid)`.
The route's `.single()` yields the row when this list is a singleton and
the "no rows" error code `PGRST116` otherwise (which the handler treats as
"no existing vote"). -/
def findVote (store : List Vote) (rid aid : String) : List Vote :=
  store.filter (fun v => v.review_id == rid && v.auth_id == aid)

/-- Injected outcomes of the four store operations the POST handler may
perform; `true` means the corresponding supabase call returned an error
(for the insert this includes a uniqueness-constraint violation from a
racing duplicate). `checkErr` is a lookup error other than `PGRST116`. -/
structure StoreErrs : Type where
  checkErr : Bool
  deleteErr : Bool
  updateErr : Bool
  insertErr : Bool
deriving DecidableEq, Repr

/-- An error-free run of the store. -/
def noErrs : StoreErrs := ⟨false, false, false, false⟩

/-- Response bodies the vote route serialises to JSON. `vote` is the
success body `{success: true, action, vote_type}`; `votesOf` is the GET
success body `{success: true, votes}`; `err` is `{error: msg}`. -/
inductive RespBody : Type where
  | err (msg : String)
  | vote (action : String) (vote_type : VoteType)
  | votesOf (m : List (String × Dir))
deriving DecidableEq, Repr

/-- An HTTP response: `res.status(status).json(body)`. -/
structure Resp : Type where
  status : Nat
  body : RespBody
deriving DecidableEq, Repr

/-- `vote_type` strings accepted by the POST validator, as `Dir`. -/
def parseDir (s : String) : Option Dir :=
  if s == "helpful" then some Dir.helpful
  else if s == "unhelpful" then some Dir.unhelpful
  else none

/-- The string form of a direction. -/
def dirStr : Dir → String
  | Dir.helpful => "helpful"
  | Dir.unhelpful => "unhelpful"

/-- Core of the POST branch after validation and auth resolution:
lookup-then-branch on the existing vote for `(rid, aid)`.
`now` is `new Date().toISOString()`, `freshId` the id the store would
assign to an inserted row. Returns the response and the new table. -/
def votePostCore (rid : String) (d : Dir) (aid anon : String)
    (errs : StoreErrs) (now freshId : Nat) (store : List Vote) :
    Resp × List Vote :=
  if errs.checkErr then
    (⟨500, RespBody.err "Failed to check existing vote"⟩, store)
  else
    match findVote store rid aid with
    | [v] =>
      if v.vote_type = d then
        -- Case 1: same vote type — remove vote (toggle off)
        if errs.deleteErr then
          (⟨500, RespBody.err "Failed to remove vote"⟩, store)
        else
          (⟨200, RespBody.vote "removed" none⟩,
           store.filter (fun w => !(w.id == v.id)))
      else
        -- Case 2: different vote type — update vote in place
        if errs.updateErr then
          (⟨500, RespBody.err "Failed to update vote"⟩, store)
        else
          (⟨200, RespBody.vote "updated" (some d)⟩,
           store.map (fun w =>
             if w.id == v.id then
               { w with vote_type := d, anonymous_id := anon, created_at := now }
             else w))
    | _ =>
      -- Case 3: no existing vote — insert
      if errs.insertErr then
        (⟨500, RespBody.err "Failed to cast vote"⟩, store)
      else
        (⟨200, RespBody.vote "created" (some d)⟩,
         store ++ [⟨freshId, rid, anon, aid, d, now⟩])

/-- The POST branch of the vote route handler. `review_id` and
`vote_type` are the (possibly missing) body fields; `user` is the result
of `supabase.auth.getUser()` (`none` when unresolved), `anonData` the
result of the `get_anonymous_id` RPC. An empty string is falsy in the
source's `if (!review_id || !vote_type)` check. -/
def handlePost (review_id vote_type : Option String)
    (user anonData : Option String) (errs : StoreErrs)
    (now freshId : Nat) (store : List Vote) : Resp × List Vote :=
  match review_id, vote_type with
  | some rid, some vts =>
    if rid == "" || vts == "" then
      (⟨400, RespBody.err "review_id and vote_type are required"⟩, store)
    else
      match parseDir vts with
      | none =>
        (⟨400, RespBody.err "vote_type must be \x22helpful\x22 or \x22unhelpful\x22"⟩, store)
      | some d =>
        match user with
        | none => (⟨401, RespBody.err "Authentication required"⟩, store)
        | some aid =>
          match anonData with
          | none => (⟨500, RespBody.err "Failed to get user identifier"⟩, store)
          | some anon => votePostCore rid d aid anon errs now freshId store

  | _, _ => (⟨400, RespBody.err "review_id and vote_type are required"⟩, store)

/-- The single-vote invariant: at most one row per `(review_id, auth_id)`
pair. -/
def InvStore (store : List Vote) : Prop :=
  ∀ rid aid, (findVote store rid aid).length ≤ 1

/-- One POST request with everything the handler consults. -/
structure PostReq : Type where
  review_id : Option String
  vote_type : Option String
  user : Option String
  anonData : Option String
  errs : StoreErrs
  now : Nat
  freshId : Nat
deriving Repr

/-- Run a sequence of POST requests against the store. -/
def runPosts (reqs : List PostReq) (store : List Vote) : List Vote :=
  reqs.foldl
    (fun st q =>
      (handlePost q.review_id q.vote_type q.user q.anonData q.errs q.now q.freshId st).2)
    store

/-! ## Invariant preservation lemmas (server side) -/

theorem findVote_filter (store : List Vote) (p : Vote → Bool) (rid aid : String) :
    List.Sublist (findVote (store.filter p) rid aid) (findVote store rid aid) :=
  List.Sublist.filter _ (List.filter_sublist store)

theorem findVote_map_length (store : List Vote) (f : Vote → Vote)
    (hf : ∀ w, (f w).review_id = w.review_id ∧ (f w).auth_id = w.auth_id)
    (rid aid : String) :
    (findVote (store.map f) rid aid).length = (findVote store rid aid).length := by
  induction store with
  | nil => rfl
  | cons w ws ih =>
    simp only [List.map_cons, findVote, List.filter_cons] at *
    rw [(hf w).1, (hf w).2]
    split <;> simp_all

theorem findVote_append (s t : List Vote) (rid aid : String) :
    findVote (s ++ t) rid aid = findVote s rid aid ++ findVote t rid aid := by
  simp [findVote, List.filter_append]

theorem short_list_cases (l : List Vote) (h : l.length ≤ 1)
    (h2 : ∀ v, ¬ l = [v]) : l = [] := by
  match l with
  | [] => rfl
  | [v] => exact absurd rfl (h2 v)
  | _ :: _ :: _ => simp at h

theorem votePostCore_inv (rid : String) (d : Dir) (aid anon : String)
    (errs : StoreErrs) (now freshId : Nat) (store : List Vote)
    (h : InvStore store) :
    InvStore (votePostCore rid d aid anon errs now freshId store).2 := by
  unfold votePostCore
  split
  · exact h
  · split
    next v hv =>
      split
      · split
        · exact h
        · intro r a
          exact le_trans (List.Sublist.length_le (findVote_filter ..)) (h r a)
      · split
        · exact h
        · intro r a
          rw [findVote_map_length]
          · exact h r a
          · intro w
            constructor <;> (dsimp only; split <;> rfl)
    next hnv =>
      split
      · exact h
      · intro r a
        rw [findVote_append]
        by_cases hra : r = rid ∧ a = aid
        · obtain ⟨rfl, rfl⟩ := hra
          have hempty : findVote store r a = [] :=
            short_list_cases _ (h r a) (fun v hv => hnv v hv)
          rw [hempty]
          simp [findVote]
        · have hpred : (rid == r && aid == a) = false := by
            cases hrr : rid == r with
            | false => rfl
            | true =>
              cases haa : aid == a with
              | false => simp
              | true =>
                exact absurd ⟨(beq_iff_eq.mp hrr).symm, (beq_iff_eq.mp haa).symm⟩ hra
          have hsingle : findVote [⟨freshId, rid, anon, aid, d, now⟩] r a = [] := by
            simp [findVote, hpred]
          rw [hsingle]
          simpa using h r a

theorem handlePost_inv (review_id vote_type user anonData : Option String)
    (errs : StoreErrs) (now freshId : Nat) (store : List Vote)
    (h : InvStore store) :
    InvStore (handlePost review_id vote_type user anonData errs now freshId store).2 := by
  unfold handlePost
  split
  · split
    · exact h
    · split
      · exact h
      · split
        · exact h
        · split
          · exact h
          · exact votePostCore_inv _ _ _ _ _ _ _ _ h
  · exact h

theorem runPosts_inv (reqs : List PostReq) (store : List Vote)
    (h : InvStore store) : InvStore (runPosts reqs store) := by
  induction reqs generalizing store with
  | nil => exact h
  | cons q qs ih =>
    exact ih _ (handlePost_inv _ _ _ _ _ _ _ _ h)

theorem handlePost_valid (rid : String) (d : Dir) (aid anon : String)
    (errs : StoreErrs) (now freshId : Nat) (store : List Vote) (hrid : ¬ rid = "") :
    handlePost (some rid) (some (dirStr d)) (some aid) (some anon) errs now freshId store
      = votePostCore rid d aid anon errs now freshId store := by
  cases d <;> simp [handlePost, parseDir, dirStr, hrid]

/-- C1: at most one Vote row ever exists per `(review_id, auth_id)` pair:
any sequence of POST requests against a store satisfying the single-vote
invariant (in particular the empty store) leaves, for every pair, either
zero or exactly one row. Enforcement is the handler's lookup-then-branch
(delete on same direction, update on opposite direction, insert only when
the lookup found no row); the handler consults no client-supplied vote
state. -/
theorem c1_single_vote_invariant (reqs : List PostReq) (store : List Vote)
    (h : InvStore store) (rid aid : String) :
    (findVote (runPosts reqs store) rid aid).length = 0 ∨
    (findVote (runPosts reqs store) rid aid).length = 1 := by
  have := runPosts_inv reqs store h rid aid
  omega

/-- Witness for C1: two POSTs by the same identity on the same review,
starting from the empty store. -/
theorem c1_single_vote_invariant_witness :
    (findVote (runPosts [⟨some "r1", some "helpful", some "u1", some "a1", noErrs, 1, 10⟩,
                         ⟨some "r1", some "helpful", some "u1", some "a2", noErrs, 2, 11⟩] [])
      "r1" "u1").length = 0 ∨
    (findVote (runPosts [⟨some "r1", some "helpful", some "u1", some "a1", noErrs, 1, 10⟩,
                         ⟨some "r1", some "helpful", some "u1", some "a2", noErrs, 2, 11⟩] [])
      "r1" "u1").length = 1 :=
  c1_single_vote_invariant _ [] (fun rid aid => by simp [findVote]) "r1" "u1"

/-- C2: the POST handler implements the three-state transition table for
an authenticated caller with valid input and an error-free store: from no
existing vote it inserts and answers `created` with the new direction;
from a vote of the same direction it deletes the row and answers
`removed` with `vote_type` null (toggling, not a no-op); from a vote of
the opposite direction it updates the row's direction in place,
refreshing its timestamp (`created_at := now`), and answers `updated`. -/
theorem c2_castOrToggle_transitions (rid : String) (d : Dir) (aid anon : String)
    (now freshId : Nat) (store : List Vote) (v : Vote) (hrid : ¬ rid = "") :
    (findVote store rid aid = [] →
      handlePost (some rid) (some (dirStr d)) (some aid) (some anon) noErrs now freshId store
        = (⟨200, RespBody.vote "created" (some d)⟩,
           store ++ [⟨freshId, rid, anon, aid, d, now⟩]))
    ∧ (findVote store rid aid = [v] → v.vote_type = d →
      handlePost (some rid) (some (dirStr d)) (some aid) (some anon) noErrs now freshId store
        = (⟨200, RespBody.vote "removed" none⟩,
           store.filter (fun w => !(w.id == v.id))))
    ∧ (findVote store rid aid = [v] → ¬ v.vote_type = d →
      handlePost (some rid) (some (dirStr d)) (some aid) (some anon) noErrs now freshId store
        = (⟨200, RespBody.vote "updated" (some d)⟩,
           store.map (fun w =>
             if w.id == v.id then
               { w with vote_type := d, anonymous_id := anon, created_at := now }
             else w))) := by
  refine ⟨fun hno => ?_, fun hv hsame => ?_, fun hv hdiff => ?_⟩ <;>
    rw [handlePost_valid _ _ _ _ _ _ _ _ hrid]
  · simp [votePostCore, noErrs, hno]
  · simp [votePostCore, noErrs, hv, hsame]
  · simp [votePostCore, noErrs, hv, hdiff]

/-- Witness for C2: a fresh `helpful` cast on an empty store inserts the
row and answers `created`. -/
theorem c2_castOrToggle_transitions_witness :
    handlePost (some "r1") (some "helpful") (some "u1") (some "a1") noErrs 1 10 []
      = (⟨200, RespBody.vote "created" (some Dir.helpful)⟩,
         [⟨10, "r1", "a1", "u1", Dir.helpful, 1⟩]) := by
  have h := (c2_castOrToggle_transitions "r1" Dir.helpful "u1" "a1" 1 10 []
      ⟨10, "r1", "a1", "u1", Dir.helpful, 1⟩ (by decide)).1 rfl
  simpa [dirStr] using h

/-- C3 (counterexample): the claim says a uniqueness violation on insert
is recovered internally by retrying as an update and never surfaced.  In
the code the insert-error path returns `500 Failed to cast vote`
unconditionally: here a POST whose store insert fails (as a racing
duplicate under a unique constraint would) yields a surfaced 500 error
response — not an `updated` success — and no retry is attempted. -/
theorem c3_conflict_surfaced_counterexample :
    handlePost (some "r1") (some "helpful") (some "u1") (some "a1")
        ⟨false, false, false, true⟩ 1 10 []
      = (⟨500, RespBody.err "Failed to cast vote"⟩, []) := by decide

/-- C3 (amended): when the insert of a new vote fails — including a
uniqueness-constraint violation from a racing duplicate — the handler
surfaces a `500` "Failed to cast vote" error response to the caller and
performs no retry-as-update; the store is left unchanged. -/
theorem c3_insert_failure_surfaced (rid : String) (d : Dir) (aid anon : String)
    (now freshId : Nat) (store : List Vote) (hrid : ¬ rid = "")
    (hno : findVote store rid aid = []) :
    handlePost (some rid) (some (dirStr d)) (some aid) (some anon)
        ⟨false, false, false, true⟩ now freshId store
      = (⟨500, RespBody.err "Failed to cast vote"⟩, store) := by
  rw [handlePost_valid _ _ _ _ _ _ _ _ hrid]
  simp [votePostCore, hno]

/-- Witness for the amended C3. -/
theorem c3_insert_failure_surfaced_witness :
    handlePost (some "r2") (some "unhelpful") (some "u2") (some "a2")
        ⟨false, false, false, true⟩ 7 42 []
      = (⟨500, RespBody.err "Failed to cast vote"⟩, []) := by
  have h := c3_insert_failure_surfaced "r2" Dir.unhelpful "u2" "a2" 7 42 []
      (by decide) rfl
  simpa [dirStr] using h

/-- C9: the POST handler rejects with `400` when `review_id` or
`vote_type` is missing (or empty, which is falsy in the source's check),
or when `vote_type` is not `"helpful"`/`"unhelpful"`, and in every such
case the store is returned unmutated; an otherwise valid POST whose
caller identity cannot be resolved is rejected with `401`, also without
mutating the store. -/
theorem c9_validation_and_auth (vts rido : Option String)
    (user anonData : Option String) (errs : StoreErrs) (now freshId : Nat)
    (store : List Vote) (r s : String) (d : Dir) :
    (handlePost none vts user anonData errs now freshId store
       = (⟨400, RespBody.err "review_id and vote_type are required"⟩, store))
    ∧ (handlePost rido none user anonData errs now freshId store
       = (⟨400, RespBody.err "review_id and vote_type are required"⟩, store))
    ∧ (¬ s = "helpful" → ¬ s = "unhelpful" → ¬ r = "" → ¬ s = "" →
       handlePost (some r) (some s) user anonData errs now freshId store
       = (⟨400, RespBody.err "vote_type must be \x22helpful\x22 or \x22unhelpful\x22"⟩, store))
    ∧ (¬ r = "" →
       handlePost (some r) (some (dirStr d)) none anonData errs now freshId store
       = (⟨401, RespBody.err "Authentication required"⟩, store)) := by
  refine ⟨rfl, ?_, fun h1 h2 h3 h4 => ?_, fun h5 => ?_⟩
  · cases rido <;> rfl
  · simp [handlePost, parseDir, h1, h2, h3, h4]
  · cases d <;> simp [handlePost, parseDir, dirStr, h5]

/-- Witness for C9: `vote_type = "maybe"` yields a 400 and no mutation. -/
theorem c9_validation_and_auth_witness :
    handlePost (some "r1") (some "maybe") (some "u1") (some "a1") noErrs 1 10 []
      = (⟨400, RespBody.err "vote_type must be \x22helpful\x22 or \x22unhelpful\x22"⟩, []) :=
  (c9_validation_and_auth (some "maybe") (some "r1") (some "u1") (some "a1")
      noErrs 1 10 [] "r1" "maybe" Dir.helpful).2.2.1
    (by decide) (by decide) (by decide) (by decide)

/-! ## GET branch: batch vote fetch -/

/-- JS `s.split(',')`: split the character list at every comma (the
separator in the route's `review_ids.split(',')`). -/
def splitCommaAux : List Char → List Char → List String
  | [], acc => [String.mk acc.reverse]
  | c :: cs, acc =>
    if c = ',' then String.mk acc.reverse :: splitCommaAux cs []
    else splitCommaAux cs (c :: acc)

/-- JS `s.split(',')`. -/
def splitComma (s : String) : List String := splitCommaAux s.data []

/-- Whitespace stripped by JS `String.prototype.trim`. -/
def isSpaceChar (c : Char) : Bool := c = ' ' || c = '\t' || c = '\n' || c = '\r'

/-- Strip leading and trailing whitespace from a character list. -/
def trimChars (l : List Char) : List Char :=
  ((l.dropWhile isSpaceChar).reverse.dropWhile isSpaceChar).reverse

/-- JS `s.trim()`. -/
def jsTrim (s : String) : String := String.mk (trimChars s.data)

/-- `review_ids.split(',').map(id => id.trim())` from the GET branch. -/
def parseIds (s : String) : List String := (splitComma s).map jsTrim

/-- JS object property read `obj[k]` on a string-keyed association list. -/
def mapGet {α : Type} (c : List (String × α)) (k : String) : Option α :=
  (c.find? (fun p => p.1 == k)).map (fun p => p.2)

/-- JS object property write `obj[k] = v` (and `Map.prototype.set`):
replace the entry for `k` when present, append it otherwise. -/
def mapSet {α : Type} (c : List (String × α)) (k : String) (v : α) :
    List (String × α) :=
  match c with
  | [] => [(k, v)]
  | (k', v') :: rest => if k' == k then (k, v) :: rest else (k', v') :: mapSet rest k v

/-- `Map.prototype.delete`: drop the entry for `k`. -/
def mapDel {α : Type} (c : List (String × α)) (k : String) : List (String × α) :=
  c.filter (fun p => !(p.1 == k))

/-- The GET branch's vote map: filter the table by
`.eq('auth_id', aid).in('review_id', ids)` and reduce the rows into an
object keyed by `review_id` (`acc[vote.review_id] = vote.vote_type`). -/
def votesMapOf (store : List Vote) (aid : String) (ids : List String) :
    List (String × Dir) :=
  (store.filter (fun v => v.auth_id == aid && ids.contains v.review_id)).foldl
    (fun acc v => mapSet acc v.review_id v.vote_type) []

/-- The GET branch of the vote route handler: validate `review_ids`,
answer `{success: true, votes: {}}` when no user session exists, and
otherwise the batch-fetched vote map (or a 500 on a fetch error). -/
def handleGet (review_ids : Option String) (user : Option String)
    (fetchErr : Bool) (store : List Vote) : Resp :=
  match review_ids with
  | none => ⟨400, RespBody.err "review_ids parameter is required"⟩
  | some s =>
    if s == "" then ⟨400, RespBody.err "review_ids parameter is required"⟩
    else
      match user with
      | none => ⟨200, RespBody.votesOf []⟩
      | some aid =>
        if fetchErr then ⟨500, RespBody.err "Failed to fetch votes"⟩
        else ⟨200, RespBody.votesOf (votesMapOf store aid (parseIds s))⟩

theorem mapGet_mapSet_self {α : Type} (c : List (String × α)) (k : String) (v : α) :
    mapGet (mapSet c k v) k = some v := by
  induction c with
  | nil => simp [mapSet, mapGet]
  | cons p rest ih =>
    obtain ⟨k', v'⟩ := p
    rw [mapSet]
    split
    · simp [mapGet]
    next h =>
      have hf : (k' == k) = false := by revert h; cases (k' == k) <;> simp
      simp only [mapGet, List.find?_cons]
      rw [hf]
      exact ih

theorem mapGet_mapSet_ne {α : Type} (c : List (String × α)) (k k' : String) (v : α)
    (h : ¬ k' = k) : mapGet (mapSet c k v) k' = mapGet c k' := by
  induction c with
  | nil => simp [mapSet, mapGet, Ne.symm h]
  | cons p rest ih =>
    obtain ⟨k0, v0⟩ := p
    rw [mapSet]
    split
    next h0 =>
      have h0' : k0 = k := beq_iff_eq.mp h0
      have hkk' : ¬ k = k' := fun hh => h hh.symm
      have hk1 : (k == k') = false := by simp [hkk']
      have hk2 : (k0 == k') = false := by rw [h0']; exact hk1
      simp only [mapGet, List.find?_cons]
      rw [hk1, hk2]
    next h0 =>
      simp only [mapGet, List.find?_cons]
      cases h1 : ((k0 == k') : Bool) with
      | true => rfl
      | false => exact ih

theorem mapGet_foldl_mapSet (l : List Vote) (acc : List (String × Dir)) (k : String) :
    mapGet (l.foldl (fun a v => mapSet a v.review_id v.vote_type) acc) k
      = match (l.filter (fun v => v.review_id == k)).getLast? with
        | some v => some v.vote_type
        | none => mapGet acc k := by
  induction l generalizing acc with
  | nil => rfl
  | cons w ws ih =>
    rw [List.foldl_cons, ih, List.filter_cons]
    by_cases hw : w.review_id = k
    · rw [if_pos (by simp [hw])]
      cases hfw : ws.filter (fun v => v.review_id == k) with
      | nil =>
        show mapGet (mapSet acc w.review_id w.vote_type) k = some w.vote_type
        rw [hw, mapGet_mapSet_self]
      | cons a as =>
        rw [List.getLast?_cons_cons]
        cases hg : (a :: as).getLast? with
        | none => simp at hg
        | some b => rfl
    · rw [if_neg (by simp [hw])]
      cases hfw : ws.filter (fun v => v.review_id == k) with
      | nil =>
        show mapGet (mapSet acc w.review_id w.vote_type) k = mapGet acc k
        exact mapGet_mapSet_ne _ _ _ _ (fun hh => hw hh.symm)
      | cons a as =>
        cases hg : (a :: as).getLast? with
        | none => simp at hg
        | some b => rfl

/-- C7: a batch GET with a well-formed `review_ids` parameter by an
unauthenticated caller answers `200 {success: true, votes: {}}` — the
missing identity is not an error; an authenticated caller receives the
vote map, which sends every requested review id on which the caller
holds a vote to that vote's direction. -/
theorem c7_batch_get (s : String) (store : List Vote) (aid : String) (v : Vote)
    (fetchErr : Bool) (hs : ¬ s = "") :
    (handleGet (some s) none fetchErr store = ⟨200, RespBody.votesOf []⟩)
    ∧ (findVote store v.review_id aid = [v] → v.review_id ∈ parseIds s →
        handleGet (some s) (some aid) false store
          = ⟨200, RespBody.votesOf (votesMapOf store aid (parseIds s))⟩
        ∧ mapGet (votesMapOf store aid (parseIds s)) v.review_id = some v.vote_type) := by
  refine ⟨by simp [handleGet, hs], fun hfv hmem => ⟨by simp [handleGet, hs], ?_⟩⟩
  have hcongr : ∀ x ∈ store,
      ((x.review_id == v.review_id) &&
        (x.auth_id == aid && (parseIds s).contains x.review_id))
        = ((x.review_id == v.review_id) && (x.auth_id == aid)) := by
    intro x _
    cases hx : ((x.review_id == v.review_id) : Bool) with
    | false => simp
    | true =>
      have hx' : x.review_id = v.review_id := beq_iff_eq.mp hx
      rw [hx']
      have hc : ((parseIds s).contains v.review_id) = true := List.elem_iff.mpr hmem
      simp only [hc, Bool.and_true]
  have hfl : (store.filter
        (fun x => x.auth_id == aid && (parseIds s).contains x.review_id)).filter
      (fun w => w.review_id == v.review_id) = [v] := by
    rw [List.filter_filter, List.filter_congr hcongr]
    exact hfv
  simp only [votesMapOf]
  rw [mapGet_foldl_mapSet, hfl]
  simp [List.getLast?_singleton]

/-- Witness for C7: an unauthenticated GET answers the empty map, and an
authenticated GET maps the requested review to the caller's vote. -/
theorem c7_batch_get_witness :
    handleGet (some "r1,r2") none false [⟨1, "r1", "a1", "u1", Dir.helpful, 0⟩]
      = ⟨200, RespBody.votesOf []⟩
    ∧ mapGet (votesMapOf [⟨1, "r1", "a1", "u1", Dir.helpful, 0⟩] "u1"
        (parseIds "r1,r2")) "r1" = some Dir.helpful := by
  have h := c7_batch_get "r1,r2" [⟨1, "r1", "a1", "u1", Dir.helpful, 0⟩] "u1"
      ⟨1, "r1", "a1", "u1", Dir.helpful, 0⟩ false (by decide)
  exact ⟨h.1, (h.2 rfl (by decide)).2⟩

/-! ## Client side: the useVotes hook and the VoteButton component -/

/-- A per-review `{helpful, unhelpful}` tally pair. -/
structure Counts : Type where
  helpful : Int
  unhelpful : Int
deriving DecidableEq, Repr

/-- State of one `useVotes` controller instance. `votes` and
`voteCounts` are the two React state objects, modelled as total maps
carrying the defaults the code applies on every read
(`votes[id] || null`, `voteCounts[id] || {helpful: 0, unhelpful: 0}`);
`pendingOperations` is the ref-held Set of review ids with an in-flight
mutation; `rollbackCache` the ref-held Map of pre-mutation snapshots. -/
structure CState : Type where
  votes : String → VoteType
  voteCounts : String → Counts
  pendingOperations : List String
  rollbackCache : List (String × (VoteType × Counts))

/-- Body of `updateVoteCountsOptimistically`'s setter: remove the old
vote's contribution, then add the new vote's. -/
def applyVoteDelta (current : Counts) (oldVote newVote : VoteType) : Counts :=
  let helpful := current.helpful
  let unhelpful := current.unhelpful
  let helpful := if oldVote = some Dir.helpful then helpful - 1 else helpful
  let unhelpful := if oldVote = some Dir.unhelpful then unhelpful - 1 else unhelpful
  let helpful := if newVote = some Dir.helpful then helpful + 1 else helpful
  let unhelpful := if newVote = some Dir.unhelpful then unhelpful + 1 else unhelpful
  ⟨helpful, unhelpful⟩

/-- `updateVoteCountsOptimistically`: update the tally pair of one
review, leaving every other review's pair untouched. -/
def updateVoteCountsOptimistically (counts : String → Counts) (reviewId : String)
    (oldVote newVote : VoteType) : String → Counts :=
  fun id =>
    if id = reviewId then applyVoteDelta (counts reviewId) oldVote newVote
    else counts id

/-- `rollbackVote`: restore the cached snapshot for `reviewId` (if one
exists) into `votes` and `voteCounts` and drop the cache entry. -/
def rollbackVote (s : CState) (reviewId : String) : CState :=
  match mapGet s.rollbackCache reviewId with
  | some vc =>
    { s with
      votes := fun id => if id = reviewId then vc.1 else s.votes id,
      voteCounts := fun id => if id = reviewId then vc.2 else s.voteCounts id,
      rollbackCache := mapDel s.rollbackCache reviewId }
  | none => s

/-- Outcome of the awaited server call of a mutation: `ok vt` is a 2xx
response with `success: true` and resulting `vote_type` `vt`; `fail`
covers a non-ok response, a `success: false` payload, and a thrown
network/parse error. -/
inductive Reply : Type where
  | ok (vote_type : VoteType)
  | fail
deriving DecidableEq, Repr

/-- First phase of `castVote`, up to the dispatch of the POST request:
the pending guard (silent no-op, no request), then snapshot, optimistic
direction write and optimistic count update. The Bool reports whether a
request was sent. -/
def castVoteBegin (s : CState) (reviewId : String) (d : Dir) : CState × Bool :=
  if reviewId ∈ s.pendingOperations then (s, false)
  else
    ({ s with
        pendingOperations := reviewId :: s.pendingOperations,
        rollbackCache :=
          mapSet s.rollbackCache reviewId (s.votes reviewId, s.voteCounts reviewId),
        votes := fun id => if id = reviewId then some d else s.votes id,
        voteCounts :=
          updateVoteCountsOptimistically s.voteCounts reviewId (s.votes reviewId)
            (some d) },
     true)

/-- Second phase of `castVote`, after the server reply: on success
overwrite the direction with the server-declared `vote_type` and clear
the rollback cache entry; on failure roll back and signal the error
(toast + `onVoteError`), reported by the Bool; the `finally` block
removes the review from the pending set in both cases. -/
def castVoteFinish (s : CState) (reviewId : String) (reply : Reply) : CState × Bool :=
  match reply with
  | Reply.ok vt =>
    ({ s with
        votes := fun id => if id = reviewId then vt else s.votes id,
        rollbackCache := mapDel s.rollbackCache reviewId,
        pendingOperations := s.pendingOperations.erase reviewId }, false)
  | Reply.fail =>
    let restored := rollbackVote s reviewId
    ({ restored with
        pendingOperations := restored.pendingOperations.erase reviewId }, true)

/-- The whole `castVote(reviewId, voteType)` call, `reply` being the
outcome of its awaited POST. Results: new state, whether a request was
sent, whether a failure was signalled. -/
def castVote (s : CState) (reviewId : String) (d : Dir) (reply : Reply) :
    CState × Bool × Bool :=
  if (castVoteBegin s reviewId d).2 then
    ((castVoteFinish (castVoteBegin s reviewId d).1 reviewId reply).1, true,
     (castVoteFinish (castVoteBegin s reviewId d).1 reviewId reply).2)
  else ((castVoteBegin s reviewId d).1, false, false)

/-- First phase of `removeVote`: pending guard, snapshot, optimistic
clear of the direction and optimistic count update towards `null`. -/
def removeVoteBegin (s : CState) (reviewId : String) : CState × Bool :=
  if reviewId ∈ s.pendingOperations then (s, false)
  else
    ({ s with
        pendingOperations := reviewId :: s.pendingOperations,
        rollbackCache :=
          mapSet s.rollbackCache reviewId (s.votes reviewId, s.voteCounts reviewId),
        votes := fun id => if id = reviewId then none else s.votes id,
        voteCounts :=
          updateVoteCountsOptimistically s.voteCounts reviewId (s.votes reviewId)
            none },
     true)

/-- Second phase of `removeVote`: on success only the cache entry is
cleared (the optimistic `null` stands); on failure roll back and signal. -/
def removeVoteFinish (s : CState) (reviewId : String) (reply : Reply) :
    CState × Bool :=
  match reply with
  | Reply.ok _ =>
    ({ s with
        rollbackCache := mapDel s.rollbackCache reviewId,
        pendingOperations := s.pendingOperations.erase reviewId }, false)
  | Reply.fail =>
    let restored := rollbackVote s reviewId
    ({ restored with
        pendingOperations := restored.pendingOperations.erase reviewId }, true)

/-- The whole `removeVote(reviewId)` call. -/
def removeVote (s : CState) (reviewId : String) (reply : Reply) :
    CState × Bool × Bool :=
  if (removeVoteBegin s reviewId).2 then
    ((removeVoteFinish (removeVoteBegin s reviewId).1 reviewId reply).1, true,
     (removeVoteFinish (removeVoteBegin s reviewId).1 reviewId reply).2)
  else ((removeVoteBegin s reviewId).1, false, false)

/-- Outcome of the awaited batch GET of `fetchUserVotes`. -/
inductive FetchReply : Type where
  | ok (votes : List (String × Dir))
  | fail
deriving DecidableEq, Repr

/-- The merge `setVotes(prev => ({...prev, ...data.votes}))`: keys
present in the server map overwrite, all other keys keep their local
value. -/
def mergeVotes (votes : String → VoteType) (server : List (String × Dir)) :
    String → VoteType :=
  fun id =>
    match mapGet server id with
    | some d => some d
    | none => votes id

/-- `fetchUserVotes(ids)`: no-op on an empty id list; on a successful
fetch merge the server map into local votes; on failure leave state
unchanged (only the error callback fires). -/
def fetchUserVotes (s : CState) (ids : List String) (reply : FetchReply) : CState :=
  if ids.isEmpty then s
  else
    match reply with
    | FetchReply.ok serverVotes => { s with votes := mergeVotes s.votes serverVotes }
    | FetchReply.fail => s

/-- `refreshVotes(ids?)`: fetch for the given ids, defaulting to the
hook's `reviewIds`, skipping the call when the list is empty. -/
def refreshVotes (s : CState) (hookReviewIds : List String)
    (ids : Option (List String)) (reply : FetchReply) : CState :=
  if (ids.getD hookReviewIds).isEmpty then s
  else fetchUserVotes s (ids.getD hookReviewIds) reply

/-- Local state of one `VoteButton`: the current vote and the single
net vote count. -/
structure BtnState : Type where
  currentVote : VoteType
  voteCount : Int
  isLoading : Bool
deriving DecidableEq, Repr

/-- The optimistic direction of `VoteButton.handleVote`: toggle off on
a same-direction click, else switch to the clicked direction. -/
def btnNewVote (currentVote : VoteType) (d : Dir) : VoteType :=
  if currentVote = some d then none else some d

/-- The optimistic net-count arithmetic of `VoteButton.handleVote`. -/
def btnNewCount (currentVote : VoteType) (voteCount : Int) (d : Dir) : Int :=
  if currentVote = some d then
    if d = Dir.helpful then voteCount - 1 else voteCount + 1
  else
    let c :=
      if currentVote = some Dir.helpful then voteCount - 1
      else if currentVote = some Dir.unhelpful then voteCount + 1
      else voteCount
    if d = Dir.helpful then c + 1 else c - 1

/-- `VoteButton.handleVote(voteType)`: guard on `isLoading`, optimistic
update, then on success overwrite the direction with the server's
`vote_type` (count kept optimistic), on failure restore the pre-call
direction and count; `finally` clears `isLoading`. -/
def handleVote (b : BtnState) (d : Dir) (reply : Reply) : BtnState :=
  if b.isLoading then b
  else
    match reply with
    | Reply.ok vt =>
      { currentVote := vt,
        voteCount := btnNewCount b.currentVote b.voteCount d,
        isLoading := false }
    | Reply.fail =>
      { currentVote := b.currentVote, voteCount := b.voteCount, isLoading := false }

theorem mapDel_mapSet_of_absent {α : Type} (c : List (String × α)) (k : String)
    (v : α) (h : mapGet c k = none) : mapDel (mapSet c k v) k = c := by
  induction c with
  | nil => simp [mapSet, mapDel]
  | cons p rest ih =>
    obtain ⟨k0, v0⟩ := p
    simp only [mapGet, List.find?_cons] at h
    cases hk : ((k0 == k) : Bool) with
    | true => simp only [hk] at h; exact absurd h (by simp)
    | false =>
      simp only [hk] at h
      rw [mapSet, if_neg (by simp [hk])]
      show mapDel ((k0, v0) :: mapSet rest k v) k = (k0, v0) :: rest
      rw [mapDel, List.filter_cons, if_pos (by simp [hk])]
      exact congrArg (fun l => (k0, v0) :: l) (ih h)

theorem CState.ext_eq {a b : CState} (h1 : a.votes = b.votes)
    (h2 : a.voteCounts = b.voteCounts)
    (h3 : a.pendingOperations = b.pendingOperations)
    (h4 : a.rollbackCache = b.rollbackCache) : a = b := by
  cases a; cases b
  cases h1; cases h2; cases h3; cases h4
  rfl

theorem beginFail (s : CState) (r : String) (nv : VoteType)
    (hc : mapGet s.rollbackCache r = none) :
    castVoteFinish
      ⟨fun id => if id = r then nv else s.votes id,
       updateVoteCountsOptimistically s.voteCounts r (s.votes r) nv,
       r :: s.pendingOperations,
       mapSet s.rollbackCache r (s.votes r, s.voteCounts r)⟩ r Reply.fail
      = (s, true) := by
  simp only [castVoteFinish, rollbackVote, mapGet_mapSet_self]
  rw [mapDel_mapSet_of_absent _ _ _ hc, List.erase_cons_head]
  refine congrArg (fun x => (x, true)) (CState.ext_eq ?_ ?_ rfl rfl)
  · funext id
    by_cases hid : id = r
    · subst hid; simp
    · simp [hid]
  · funext id
    by_cases hid : id = r
    · subst hid; simp
    · simp [hid, updateVoteCountsOptimistically]

theorem removeVoteFinish_fail (x : CState) (r : String) :
    removeVoteFinish x r Reply.fail = castVoteFinish x r Reply.fail := rfl

/-- C4: after a failed mutation (non-2xx, `success: false`, or thrown
error), both `castVote` and `removeVote` restore the controller state —
direction map, count map, pending set and rollback cache — to exactly
the pre-call state, and the failure is signalled non-fatally (second
Bool); `VoteButton.handleVote` likewise restores its pre-call direction
and count. -/
theorem c4_rollback_restores (s : CState) (r : String) (d : Dir) (b : BtnState)
    (hp : ¬ r ∈ s.pendingOperations)
    (hc : mapGet s.rollbackCache r = none)
    (hb : b.isLoading = false) :
    castVote s r d Reply.fail = (s, true, true)
    ∧ removeVote s r Reply.fail = (s, true, true)
    ∧ handleVote b d Reply.fail = b := by
  have hcb : castVoteBegin s r d =
      (⟨fun id => if id = r then some d else s.votes id,
        updateVoteCountsOptimistically s.voteCounts r (s.votes r) (some d),
        r :: s.pendingOperations,
        mapSet s.rollbackCache r (s.votes r, s.voteCounts r)⟩, true) := by
    rw [castVoteBegin, if_neg hp]
  have hrb : removeVoteBegin s r =
      (⟨fun id => if id = r then none else s.votes id,
        updateVoteCountsOptimistically s.voteCounts r (s.votes r) none,
        r :: s.pendingOperations,
        mapSet s.rollbackCache r (s.votes r, s.voteCounts r)⟩, true) := by
    rw [removeVoteBegin, if_neg hp]
  refine ⟨?_, ?_, ?_⟩
  · simp only [castVote, hcb, beginFail s r (some d) hc, if_true]
  · simp only [removeVote, hrb, removeVoteFinish_fail, beginFail s r none hc, if_true]
  · cases b with
    | mk cv vc il =>
      simp only at hb
      subst hb
      simp [handleVote]

/-- Witness for C4: a failed cast on a fresh controller restores the
initial state and signals the error. -/
theorem c4_rollback_restores_witness :
    castVote ⟨fun _ => none, fun _ => ⟨0, 0⟩, [], []⟩ "r1" Dir.helpful Reply.fail
      = (⟨fun _ => none, fun _ => ⟨0, 0⟩, [], []⟩, true, true)
    ∧ handleVote ⟨none, 0, false⟩ Dir.helpful Reply.fail = ⟨none, 0, false⟩ := by
  have h := c4_rollback_restores ⟨fun _ => none, fun _ => ⟨0, 0⟩, [], []⟩ "r1"
      Dir.helpful ⟨none, 0, false⟩ (by simp) rfl rfl
  exact ⟨h.1, h.2.2⟩

/-- The derived net score `helpful − unhelpful` of a tally pair. -/
def netScore (c : Counts) : Int := c.helpful - c.unhelpful

/-- C5: the count-update algorithm (`updateVoteCountsOptimistically`,
whose per-review body is `applyVoteDelta`) first undoes the previous
direction's contribution and then applies the new one, touching only the
one review's pair: switching direction swings the net score by exactly 2,
casting from no vote by exactly 1, and removing by −1 or +1 according to
the prior direction; `VoteButton`'s single net count obeys the same
swings. -/
theorem c5_count_update_swings (c : Counts) (counts : String → Counts)
    (reviewId : String) (oldVote newVote : VoteType) (d d2 : Dir) (n : Int)
    (cv : VoteType) :
    (updateVoteCountsOptimistically counts reviewId oldVote newVote reviewId
       = applyVoteDelta (counts reviewId) oldVote newVote)
    ∧ (∀ id, ¬ id = reviewId →
        updateVoteCountsOptimistically counts reviewId oldVote newVote id = counts id)
    ∧ (¬ d = d2 → netScore (applyVoteDelta c (some d) (some d2)) - netScore c
        = if d2 = Dir.helpful then 2 else -2)
    ∧ (¬ d = d2 →
        (netScore (applyVoteDelta c (some d) (some d2)) - netScore c).natAbs = 2)
    ∧ (netScore (applyVoteDelta c none (some d)) - netScore c
        = if d = Dir.helpful then 1 else -1)
    ∧ (netScore (applyVoteDelta c (some d) none) - netScore c
        = if d = Dir.helpful then -1 else 1)
    ∧ (¬ cv = some d → ¬ cv = none → (btnNewCount cv n d - n).natAbs = 2)
    ∧ (btnNewCount none n d - n = if d = Dir.helpful then 1 else -1)
    ∧ (btnNewCount (some d) n d - n = if d = Dir.helpful then -1 else 1) := by
  refine ⟨by simp [updateVoteCountsOptimistically],
          fun id hid => by simp [updateVoteCountsOptimistically, hid],
          fun hne => ?_, fun hne => ?_, ?_, ?_, fun h1 h2 => ?_, ?_, ?_⟩
  · cases d <;> cases d2 <;>
      first
        | exact absurd rfl hne
        | (simp [applyVoteDelta, netScore]; try omega)
  · cases d <;> cases d2 <;>
      first
        | exact absurd rfl hne
        | (simp [applyVoteDelta, netScore]; try omega)
  · cases d <;> (simp [applyVoteDelta, netScore]; try omega)
  · cases d <;> (simp [applyVoteDelta, netScore]; try omega)
  · cases cv with
    | none => exact absurd rfl h2
    | some dv =>
      cases dv <;> cases d <;>
        first
          | exact absurd rfl h1
          | (simp [btnNewCount]; try omega)
  · cases d <;> (simp [btnNewCount]; try omega)
  · cases d <;> (simp [btnNewCount]; try omega)

/-- Witness for C5: switching from unhelpful to helpful on counts (1, 0)
swings the net score by +2, and the VoteButton net count likewise moves
two units on a direction switch. -/
theorem c5_count_update_swings_witness :
    netScore (applyVoteDelta ⟨1, 0⟩ (some Dir.unhelpful) (some Dir.helpful))
        - netScore ⟨1, 0⟩ = 2
    ∧ (btnNewCount (some Dir.helpful) 1 Dir.unhelpful - 1).natAbs = 2 := by
  have h := c5_count_update_swings ⟨1, 0⟩ (fun _ => ⟨0, 0⟩) "r1" none none
      Dir.unhelpful Dir.helpful 1 (some Dir.helpful)
  refine ⟨?_, h.2.2.2.2.2.2.1 (by decide) (by decide)⟩
  have h2 := h.2.2.1 (by decide)
  simpa using h2

/-- C6: while a mutation for a review is pending, any further `castVote`
or `removeVote` for the same review is a silent no-op — state unchanged
and no request sent; from an idle state the first call sends a request
and a second call for the same review, arriving while the first is
pending, is dropped, so exactly one request goes out; a call for a
different, idle review is not blocked. -/
theorem c6_pending_guard (s : CState) (r r2 : String) (d d2 : Dir) :
    (r ∈ s.pendingOperations →
      castVoteBegin s r d = (s, false) ∧ removeVoteBegin s r = (s, false))
    ∧ (¬ r ∈ s.pendingOperations →
      (castVoteBegin s r d).2 = true
      ∧ castVoteBegin (castVoteBegin s r d).1 r d2 = ((castVoteBegin s r d).1, false)
      ∧ removeVoteBegin (castVoteBegin s r d).1 r = ((castVoteBegin s r d).1, false)
      ∧ (¬ r2 = r → ¬ r2 ∈ s.pendingOperations →
          (castVoteBegin (castVoteBegin s r d).1 r2 d2).2 = true)) := by
  constructor
  · intro h
    exact ⟨by rw [castVoteBegin, if_pos h], by rw [removeVoteBegin, if_pos h]⟩
  · intro h
    have hcb : castVoteBegin s r d =
        (⟨fun id => if id = r then some d else s.votes id,
          updateVoteCountsOptimistically s.voteCounts r (s.votes r) (some d),
          r :: s.pendingOperations,
          mapSet s.rollbackCache r (s.votes r, s.voteCounts r)⟩, true) := by
      rw [castVoteBegin, if_neg h]
    refine ⟨by rw [hcb], ?_, ?_, fun hne hnm => ?_⟩
    · rw [hcb, castVoteBegin, if_pos (List.mem_cons_self r s.pendingOperations)]
    · rw [hcb, removeVoteBegin, if_pos (List.mem_cons_self r s.pendingOperations)]
    · have hmem2 : ¬ r2 ∈ (r :: s.pendingOperations) := by
        intro hmem
        rcases List.mem_cons.mp hmem with h1 | h1
        · exact hne h1
        · exact hnm h1
      rw [hcb, castVoteBegin, if_neg hmem2]

/-- Witness for C6: on a fresh controller the first cast sends a request
and an overlapping second cast for the same review is dropped without
changing state. -/
theorem c6_pending_guard_witness :
    (castVoteBegin ⟨fun _ => none, fun _ => ⟨0, 0⟩, [], []⟩ "r1" Dir.helpful).2 = true
    ∧ castVoteBegin
        (castVoteBegin ⟨fun _ => none, fun _ => ⟨0, 0⟩, [], []⟩ "r1" Dir.helpful).1
        "r1" Dir.unhelpful
      = ((castVoteBegin ⟨fun _ => none, fun _ => ⟨0, 0⟩, [], []⟩ "r1" Dir.helpful).1,
         false)
    ∧ (castVoteBegin
        (castVoteBegin ⟨fun _ => none, fun _ => ⟨0, 0⟩, [], []⟩ "r1" Dir.helpful).1
        "r2" Dir.unhelpful).2 = true := by
  have h := (c6_pending_guard ⟨fun _ => none, fun _ => ⟨0, 0⟩, [], []⟩ "r1" "r2"
      Dir.helpful Dir.unhelpful).2 (by simp)
  exact ⟨h.1, h.2.1, h.2.2.2 (by decide) (by simp)⟩

theorem mapGet_mapDel_self {α : Type} (c : List (String × α)) (k : String) :
    mapGet (mapDel c k) k = none := by
  induction c with
  | nil => rfl
  | cons p rest ih =>
    obtain ⟨k0, v0⟩ := p
    rw [mapDel, List.filter_cons]
    cases hk : ((k0 == k) : Bool) with
    | true =>
      rw [if_neg (by simp [hk])]
      exact ih
    | false =>
      rw [if_pos (by simp [hk])]
      simp only [mapGet, List.find?_cons]
      rw [hk]
      exact ih

/-- C8: on a successful mutation the controller overwrites the local
direction of the review with the server-declared resulting `vote_type`,
leaves the count pair exactly as the optimistic projection (counts are
never overwritten from the response), and clears the rollback snapshot
for that review. -/
theorem c8_success_reconciliation (s : CState) (r : String) (d : Dir)
    (vt : VoteType) (hp : ¬ r ∈ s.pendingOperations) :
    (castVote s r d (Reply.ok vt)).1.votes r = vt
    ∧ (castVote s r d (Reply.ok vt)).1.voteCounts
        = (castVoteBegin s r d).1.voteCounts
    ∧ (castVote s r d (Reply.ok vt)).1.voteCounts r
        = applyVoteDelta (s.voteCounts r) (s.votes r) (some d)
    ∧ mapGet (castVote s r d (Reply.ok vt)).1.rollbackCache r = none := by
  have hcb : castVoteBegin s r d =
      (⟨fun id => if id = r then some d else s.votes id,
        updateVoteCountsOptimistically s.voteCounts r (s.votes r) (some d),
        r :: s.pendingOperations,
        mapSet s.rollbackCache r (s.votes r, s.voteCounts r)⟩, true) := by
    rw [castVoteBegin, if_neg hp]
  refine ⟨?_, ?_, ?_, ?_⟩
  · simp [castVote, hcb, castVoteFinish]
  · simp [castVote, hcb, castVoteFinish]
  · simp [castVote, hcb, castVoteFinish, updateVoteCountsOptimistically]
  · simp [castVote, hcb, castVoteFinish, mapGet_mapDel_self]

/-- Witness for C8: a successful cast whose server reply carries
`vote_type: "unhelpful"` leaves that direction locally, the optimistic
counts, and no snapshot. -/
theorem c8_success_reconciliation_witness :
    (castVote ⟨fun _ => none, fun _ => ⟨0, 0⟩, [], []⟩ "r1" Dir.helpful
        (Reply.ok (some Dir.unhelpful))).1.votes "r1" = some Dir.unhelpful
    ∧ (castVote ⟨fun _ => none, fun _ => ⟨0, 0⟩, [], []⟩ "r1" Dir.helpful
        (Reply.ok (some Dir.unhelpful))).1.voteCounts "r1"
        = applyVoteDelta ⟨0, 0⟩ none (some Dir.helpful)
    ∧ mapGet (castVote ⟨fun _ => none, fun _ => ⟨0, 0⟩, [], []⟩ "r1" Dir.helpful
        (Reply.ok (some Dir.unhelpful))).1.rollbackCache "r1" = none := by
  have h := c8_success_reconciliation ⟨fun _ => none, fun _ => ⟨0, 0⟩, [], []⟩
      "r1" Dir.helpful (some Dir.unhelpful) (by simp)
  exact ⟨h.1, h.2.2.1, h.2.2.2⟩

/-- C10: `fetchUserVotes` (and `refreshVotes`, which delegates to it)
merges the server's vote map into local state: every review id present
in the response overwrites the local direction, every id absent from the
response — including requested ids the server holds no vote for, which
the GET handler simply omits from its map — keeps its local direction,
so a vote deleted server-side is never cleared locally by a refresh. -/
theorem c10_refresh_merges (s : CState) (ids hook : List String)
    (oids : Option (List String)) (server : List (String × Dir)) (k : String)
    (d : Dir) (store : List Vote) (aid : String) (ids2 : List String) :
    (mapGet server k = none →
      (fetchUserVotes s ids (FetchReply.ok server)).votes k = s.votes k)
    ∧ (¬ ids = [] → mapGet server k = some d →
      (fetchUserVotes s ids (FetchReply.ok server)).votes k = some d)
    ∧ refreshVotes s hook oids (FetchReply.ok server)
        = fetchUserVotes s (oids.getD hook) (FetchReply.ok server)
    ∧ (findVote store k aid = [] →
        mapGet (votesMapOf store aid ids2) k = none) := by
  refine ⟨fun hnone => ?_, fun hne hsome => ?_, ?_, fun hno => ?_⟩
  · rw [fetchUserVotes]
    by_cases he : ids.isEmpty
    · rw [if_pos he]
    · rw [if_neg he]
      simp [mergeVotes, hnone]
  · rw [fetchUserVotes, if_neg (by simp [hne])]
    simp [mergeVotes, hsome]
  · rw [refreshVotes]
    by_cases he : (oids.getD hook).isEmpty
    · rw [if_pos he, fetchUserVotes, if_pos he]
    · rw [if_neg he]
  · simp only [votesMapOf]
    rw [mapGet_foldl_mapSet]
    have hemp : (store.filter
          (fun x => x.auth_id == aid && ids2.contains x.review_id)).filter
        (fun w => w.review_id == k) = [] := by
      rw [List.filter_filter, List.filter_eq_nil_iff]
      intro x hx
      have hall := List.filter_eq_nil_iff.mp hno x hx
      intro hq
      simp only [Bool.and_eq_true] at hq hall
      exact hall ⟨hq.1, hq.2.1⟩
    rw [hemp]
    rfl

/-- Witness for C10: a refresh whose response holds no entry for "r2"
keeps the local direction for "r2" unchanged. -/
theorem c10_refresh_merges_witness :
    (fetchUserVotes ⟨fun _ => some Dir.helpful, fun _ => ⟨0, 0⟩, [], []⟩
        ["r1", "r2"] (FetchReply.ok [("r1", Dir.unhelpful)])).votes "r2"
      = some Dir.helpful
    ∧ (fetchUserVotes ⟨fun _ => some Dir.helpful, fun _ => ⟨0, 0⟩, [], []⟩
        ["r1", "r2"] (FetchReply.ok [("r1", Dir.unhelpful)])).votes "r1"
      = some Dir.unhelpful := by
  have h := c10_refresh_merges ⟨fun _ => some Dir.helpful, fun _ => ⟨0, 0⟩, [], []⟩
      ["r1", "r2"] [] none [("r1", Dir.unhelpful)] "r2" Dir.unhelpful [] "u1" []
  have h2 := c10_refresh_merges ⟨fun _ => some Dir.helpful, fun _ => ⟨0, 0⟩, [], []⟩
      ["r1", "r2"] [] none [("r1", Dir.unhelpful)] "r1" Dir.unhelpful [] "u1" []
  exact ⟨h.1 (by decide), h2.2.1 (by simp) (by decide)⟩
